import Mathlib

/-!
Verification of the HR resume-agent pipeline core.

Shallow embedding of the Python sources:
  src/state.py       (data model)
  src/agents.py      (canonicalization, scoring, shortlist, analyst, reviewer)
  src/fallbacks.py   (circuit breaker)
  src/tools/calendar.py (ICS fallback artifact)
  src/tools/retriever.py (embedding-cache validity)

Modelling conventions:
  - Python floats are modelled as exact rationals; the arithmetic in the
    scored pipeline stays within small decimal fractions, so no theorem
    below depends on binary floating-point rounding of intermediate sums.
  - Python round(x, 4) performs round-half-to-even on the value; we model
    exact decimal round-half-to-even.  No theorem below depends on the tie
    behaviour.
  - Strings are modelled over their character lists; str.strip, str.lower
    and the two regular expressions of agents.py are modelled on the ASCII
    ranges that the data in this repository uses.
  - time.time() values are modelled as rationals passed explicitly
    to the circuit-breaker operations.
-/

namespace HR

/- Core marks rational arithmetic irreducible; re-allow unfolding so that
concrete instances can be settled by kernel evaluation. -/
attribute [local semireducible] Rat.mul Rat.inv Rat.add Rat.sub

/-! ## Data model (src/state.py) -/

structure Candidate where
  name : String
  email : Option String
  years_exp : Int
  skills : List String
  score : ℚ
  resume_path : String
deriving DecidableEq, Repr

structure JD where
  title : String
  must_haves : List String
  nice_haves : List String
  location : Option String
deriving DecidableEq, Repr

structure OrchestratorState where
  jd : JD
  candidates : List Candidate
  shortlisted : List Candidate
  questions : List String
  policy_violation : Bool
  needs_disambiguation : Bool
  tool_error : Bool
  schema_ok : Bool
  violations : List String
deriving DecidableEq, Repr

/-! ## String canonicalization (src/agents.py, `_canonize`) -/

/-- Python whitespace class for str.strip and the regex class \s (ASCII part). -/
def isPyWs (c : Char) : Bool :=
  c = ' ' || c = '\t' || c = '\n' || c = '\r' || c = '\x0b' || c = '\x0c'

/-- The character class of the first regex in `_canonize`: whitespace or
one of the separators / | , ;  (runs are replaced by a single space). -/
def wsSepClass (c : Char) : Bool :=
  isPyWs c || c = '/' || c = '|' || c = ',' || c = ';'

/-- The character class kept by the second regex in `_canonize`:
lowercase letters, digits, space, and + # . - . -/
def allowedChar (c : Char) : Bool :=
  ('a' ≤ c && c ≤ 'z') || ('0' ≤ c && c ≤ '9') ||
  c = ' ' || c = '+' || c = '#' || c = '.' || c = '-'

/-- ASCII lowering, modelling str.lower on the data used here. -/
def pyLower (c : Char) : Char :=
  if 'A' ≤ c ∧ c ≤ 'Z' then Char.ofNat (c.toNat + 32) else c

/-- str.strip() on a character list: drop whitespace from both ends. -/
def pyStripList (l : List Char) : List Char :=
  ((l.dropWhile isPyWs).reverse.dropWhile isPyWs).reverse

/-- str.strip() on a string. -/
def pyStripStr (s : String) : String := ⟨pyStripList s.data⟩

/-- str.lower() on a string. -/
def pyLowerStr (s : String) : String := ⟨s.data.map pyLower⟩

/-- re.sub of `[\s/|,;]+` by a single space: the first character of a run
emits one space, later characters of the same run emit nothing.  The
boolean argument records whether the previous character was in the class. -/
def collapseSepAux : Bool → List Char → List Char
  | _, [] => []
  | prevWs, c :: rest =>
    if wsSepClass c then
      if prevWs then collapseSepAux true rest
      else ' ' :: collapseSepAux true rest
    else c :: collapseSepAux false rest

def collapseSep (l : List Char) : List Char := collapseSepAux false l

/-- One string through the body of `_canonize`:
strip, lower, collapse separator runs, drop disallowed characters. -/
def canonizeOne (s : String) : String :=
  ⟨(collapseSep ((pyStripList s.data).map pyLower)).filter allowedChar⟩

/-- Model of `_canonize`: canonicalize each item, keeping only non-empty results. -/
def canonize (items : List String) : List String :=
  items.filterMap (fun s =>
    let t := canonizeOne s
    if t = "" then none else some t)

/-! ## Scoring (src/agents.py, `_overlap`, `_score_candidate`) -/

/-- Model of `_overlap`: set overlap ratio of canonicalized skill lists. -/
def overlap (required skills : List String) : ℚ :=
  let R := (canonize required).toFinset
  let S := (canonize skills).toFinset
  if R = ∅ then 0 else ((R ∩ S).card : ℚ) / ((max 1 R.card : ℕ) : ℚ)

/-- Exact decimal round-half-to-even to an integer (model of Python round). -/
def roundHalfEven (x : ℚ) : ℤ :=
  if x - ⌊x⌋ < 1/2 then ⌊x⌋
  else if 1/2 < x - ⌊x⌋ then ⌊x⌋ + 1
  else if ⌊x⌋ % 2 = 0 then ⌊x⌋ else ⌊x⌋ + 1

/-- round(x, 4): round half-to-even at the fourth decimal. -/
def round4 (x : ℚ) : ℚ := ((roundHalfEven (x * 10000) : ℤ) : ℚ) / 10000

/-- Model of `_score_candidate` (the three local bindings of the source inlined):
0.7 * must-have overlap + 0.3 * nice-to-have overlap (0 when the
nice-to-have list is empty) + experience bonus, rounded to 4 decimals. -/
def score_candidate (jd : JD) (c : Candidate) : ℚ :=
  round4 (7/10 * overlap jd.must_haves c.skills
    + 3/10 * (if jd.nice_haves ≠ [] then overlap jd.nice_haves c.skills else 0)
    + min (((max c.years_exp 0 : ℤ) : ℚ) / 10) (3/10))

/-- The score-field mutation performed inside `_shortlist`. -/
def scoreUpdate (jd : JD) (c : Candidate) : Candidate :=
  { c with score := score_candidate jd c }

/-! Spec-side definitions for the refinement claim C3, written from the
specification text: overlap ratio `card(inter) / max 1 (card required)`
with no emptiness guards, experience bonus `min (max years 0 / 10) (3/10)`,
weights 0.7 and 0.3, rounded to 4 decimal places. -/

def overlapSpec (required skills : List String) : ℚ :=
  (((canonize required).toFinset ∩ (canonize skills).toFinset).card : ℚ) /
    ((max 1 (canonize required).toFinset.card : ℕ) : ℚ)

def scoreSpec (jd : JD) (c : Candidate) : ℚ :=
  round4 (7/10 * overlapSpec jd.must_haves c.skills
    + 3/10 * overlapSpec jd.nice_haves c.skills
    + min (((max c.years_exp 0 : ℤ) : ℚ) / 10) (3/10))

/-! ## Shortlist selection (src/agents.py, `_shortlist`)

Python list.sort with reverse=True is a stable sort: elements with equal
keys keep their input order.  A stable sort by a key is extensionally
unique, so we embed it as stable insertion sort by descending score. -/

/-- Score every candidate, storing the score on the candidate
(the mutation `c.score = s` in `_shortlist`). -/
def scoreAll (jd : JD) (cands : List Candidate) : List Candidate :=
  cands.map (scoreUpdate jd)

/-- Insert into a descending-sorted list, after all elements of score ≥ its
own (so earlier input elements with an equal score stay in front). -/
def insertDesc (x : Candidate) : List Candidate → List Candidate
  | [] => [x]
  | y :: ys => if y.score ≤ x.score then x :: y :: ys else y :: insertDesc x ys

/-- Stable sort by descending score. -/
def sortDesc : List Candidate → List Candidate
  | [] => []
  | x :: xs => insertDesc x (sortDesc xs)

/-- Model of `_shortlist`: sort descending, keep scores ≥ min_score, truncate to
top_n; if nothing passes the threshold fall back to the sorted top_n. -/
def shortlist (jd : JD) (candidates : List Candidate) (top_n : ℕ) (min_score : ℚ) :
    List Candidate :=
  let sorted := sortDesc (scoreAll jd candidates)
  let filtered := sorted.filter (fun c => min_score ≤ c.score)
  let filtered2 := if filtered = [] then sorted.take top_n else filtered
  filtered2.take top_n

/-- Descending order by score, as a pairwise relation. -/
def ScoreDesc (l : List Candidate) : Prop :=
  l.Pairwise (fun a b => b.score ≤ a.score)

/-! ## Analyst stage (src/agents.py, `analyst`)

The default keyword parameters of `analyst`. -/

def top_n_first : ℕ := 5
def min_score_first : ℚ := 7/20
def top_n_wide : ℕ := 7
def widen_factor : ℚ := 4/5

/-- When the widening branch is taken, `analyst` first executes
`state.needs_disambiguination = True` (note the misspelling).
`OrchestratorState` is a pydantic BaseModel with default configuration and
declares no such field, so the assignment raises
`ValueError: "OrchestratorState" object has no field "needs_disambiguination"`
before any widening work happens.  The run of the stage is therefore
fallible and is embedded in `Except`; the candidate list carries the score
mutation performed by `_shortlist`. -/
def analystRun (state : OrchestratorState) (nFirst nWide : ℕ) (sFirst wFactor : ℚ) :
    Except String OrchestratorState :=
  let sl := shortlist state.jd state.candidates nFirst sFirst
  if sl.length < 3 ∧ 3 ≤ state.candidates.length then
    Except.error "OrchestratorState object has no field needs_disambiguination"
  else
    Except.ok { state with
      candidates := scoreAll state.jd state.candidates,
      shortlisted := sl }

/-- The analyst stage as the spec describes it and as the lines following
the misspelled assignment implement it: the same function with the fatal
assignment removed (the widening branch sets the correctly spelled flag,
reselects with the wide parameters, and falls back to the top
`min 3 |candidates|` by score). -/
def analystFixed (state : OrchestratorState) (nFirst nWide : ℕ) (sFirst wFactor : ℚ) :
    OrchestratorState :=
  let sl := shortlist state.jd state.candidates nFirst sFirst
  if sl.length < 3 ∧ 3 ≤ state.candidates.length then
    let sl2 := shortlist state.jd state.candidates nWide (sFirst * wFactor)
    let sl3 :=
      if sl2.length < 3 then
        (sortDesc (scoreAll state.jd state.candidates)).take
          (min 3 state.candidates.length)
      else sl2
    { state with
      candidates := scoreAll state.jd state.candidates,
      shortlisted := sl3,
      needs_disambiguation := true }
  else
    { state with
      candidates := scoreAll state.jd state.candidates,
      shortlisted := sl }

/-! ## Schema validators (src/guardrails/schemas.py) -/

/-- Model of `validate_state_transition`: shortlisted names non-empty,
5 ≤ cleaned question count ≤ 20. -/
def validateStateTransition (s : OrchestratorState) : Bool × List String :=
  let v1 := s.shortlisted.filterMap (fun c =>
    if pyStripStr c.name = "" then some "Shortlisted candidate missing valid name"
    else none)
  let qClean := s.questions.filter (fun q => pyStripStr q ≠ "")
  let v2 := if qClean.length < 5 then ["Too few questions (<5)"] else []
  let v3 := if 20 < qClean.length then ["Too many questions (>20)"] else []
  let v := v1 ++ v2 ++ v3
  (v.isEmpty, v)

/-- Model of `validate_final_output` via the pydantic FinalOutput model:
title length ≥ 2, at least one shortlisted name, 5..20 questions.
The pydantic error text is abstracted to a fixed message. -/
def validateFinalOutput (s : OrchestratorState) : Bool × List String :=
  if 2 ≤ s.jd.title.length ∧ 1 ≤ s.shortlisted.length
      ∧ 5 ≤ s.questions.length ∧ s.questions.length ≤ 20
  then (true, [])
  else (false, ["final output validation error"])

/-! ## Reviewer / Repair stage (src/agents.py, `reviewer`) -/

/-- The dedup-and-clean loop over the incoming questions: strip each,
drop empties, drop case-insensitive duplicates (seen keys accumulate). -/
def dedupCleanAux : List String → List String → List String
  | [], _ => []
  | q :: rest, seen =>
    let q2 := pyStripStr q
    if q2 ≠ "" ∧ pyLowerStr q2 ∉ seen then
      q2 :: dedupCleanAux rest (pyLowerStr q2 :: seen)
    else dedupCleanAux rest seen

def dedupClean (qs : List String) : List String := dedupCleanAux qs []

/-- The synthesized-question template of the reviewer. -/
def questionTemplate (skill : String) : String :=
  "Can you share a recent example using " ++ skill ++ "?"

/-- The top-up loop: while fewer than 8 questions and must-haves remain,
append a templated question for each must-have that is non-empty after
stripping. -/
def topUpQuestions : List String → List String → List String
  | qs, [] => qs
  | qs, m :: rest =>
    if qs.length < 8 then
      if pyStripStr m ≠ "" then
        topUpQuestions (qs ++ [questionTemplate (pyStripStr m)]) rest
      else topUpQuestions qs rest
    else qs

/-- Model of `reviewer`: repair questions, promote a best candidate into an empty
shortlist, then run both validators. -/
def reviewer (s : OrchestratorState) : OrchestratorState :=
  let qs := (topUpQuestions (dedupClean s.questions) s.jd.must_haves).take 12
  let sl :=
    if s.shortlisted = [] ∧ s.candidates ≠ [] then (sortDesc s.candidates).take 1
    else s.shortlisted
  let s1 := { s with questions := qs, shortlisted := sl }
  let vst := validateStateTransition s1
  let s2 := { s1 with
    schema_ok := vst.1,
    violations := if vst.1 then s1.violations else s1.violations ++ vst.2 }
  let vfo := validateFinalOutput s2
  { s2 with
    schema_ok := vfo.1,
    violations := if vfo.1 then s2.violations else s2.violations ++ vfo.2 }

/-- Must-have skills that survive stripping (the ones the top-up loop
can synthesize questions from). -/
def countGoodSkills (ms : List String) : ℕ :=
  (ms.filter (fun m => pyStripStr m ≠ "")).length

/-! ## Circuit breaker (src/fallbacks.py, `CircuitBreaker`)

`time.time()` values are passed explicitly as rationals. -/

inductive BState
  | CLOSED
  | OPEN
  | HALF
deriving DecidableEq, Repr

structure CircuitBreaker where
  threshold : ℤ
  cooldown_s : ℚ
  state : BState
  failures : ℤ
  open_until : ℚ
deriving DecidableEq, Repr

/-- The dataclass defaults: CLOSED, zero failures, open_until 0. -/
def initBreaker (th : ℤ) (cd : ℚ) : CircuitBreaker :=
  { threshold := th, cooldown_s := cd, state := .CLOSED, failures := 0, open_until := 0 }

/-- Model of `allow`: returns whether the call may proceed, together with the
mutated breaker (OPEN moves to HALF once the cooldown has elapsed). -/
def allow (now : ℚ) (b : CircuitBreaker) : Bool × CircuitBreaker :=
  if b.state = .OPEN then
    if b.open_until ≤ now then (true, { b with state := .HALF })
    else (false, b)
  else (true, b)

/-- Model of `record_success`. -/
def record_success (b : CircuitBreaker) : CircuitBreaker :=
  { b with failures := 0, state := .CLOSED, open_until := 0 }

/-- Model of `record_failure`. -/
def record_failure (now : ℚ) (b : CircuitBreaker) : CircuitBreaker :=
  if b.state = .HALF then
    { b with state := .OPEN, open_until := now + b.cooldown_s, failures := b.threshold }
  else
    if b.threshold ≤ b.failures + 1 then
      { b with failures := b.failures + 1, state := .OPEN,
               open_until := now + b.cooldown_s }
    else { b with failures := b.failures + 1 }

/-- A sequence of consecutive recorded failures at the given times. -/
def applyFailures (ts : List ℚ) (b : CircuitBreaker) : CircuitBreaker :=
  ts.foldl (fun b t => record_failure t b) b

/-! ## Calendar fallback (src/tools/calendar.py)

Datetimes are modelled as epoch seconds in UTC (the code converts every
input to UTC before formatting or writing).  The Gregorian conversion in
`fmtIcsDt` models strftime "%Y%m%dT%H%M%SZ" on an aware UTC datetime. -/

def pad2 (n : ℕ) : String :=
  if n < 10 then "0" ++ toString n else toString n

def pad4 (y : ℤ) : String :=
  if 0 ≤ y ∧ y < 10 then "000" ++ toString y
  else if 0 ≤ y ∧ y < 100 then "00" ++ toString y
  else if 0 ≤ y ∧ y < 1000 then "0" ++ toString y
  else toString y

/-- Days since epoch to civil (year, month, day), proleptic Gregorian. -/
def civilFromDays (days : ℤ) : ℤ × ℕ × ℕ :=
  let z := days + 719468
  let era := Int.fdiv z 146097
  let doe := (z - era * 146097).toNat
  let yoe := (doe - doe / 1460 + doe / 36524 - doe / 146096) / 365
  let y := (yoe : ℤ) + era * 400
  let doy := doe - (365 * yoe + yoe / 4 - yoe / 100)
  let mp := (5 * doy + 2) / 153
  let d := doy - (153 * mp + 2) / 5 + 1
  let m := if mp < 10 then mp + 3 else mp - 9
  (if m ≤ 2 then y + 1 else y, m, d)

/-- Model of `_fmt_ics_dt`: strftime "%Y%m%dT%H%M%SZ" of a UTC epoch second. -/
def fmtIcsDt (t : ℤ) : String :=
  let days := Int.fdiv t 86400
  let sod := (t - days * 86400).toNat
  let c := civilFromDays days
  pad4 c.1 ++ pad2 c.2.1 ++ pad2 c.2.2 ++ "T" ++
    pad2 (sod / 3600) ++ pad2 (sod % 3600 / 60) ++ pad2 (sod % 60) ++ "Z"

/-- The UID of `_write_ics`: derived from the event start time. -/
def icsUid (startUtc : ℤ) : String :=
  "hr-" ++ toString startUtc ++ "@orchestrator"

/-- The text written by `_write_ics` (the dedented, stripped f-string). -/
def icsContent (summary : String) (startUtc durationMin : ℤ)
    (location : Option String) : String :=
  "BEGIN:VCALENDAR\nVERSION:2.0\nPRODID:-//HR Orchestrator//EN\nBEGIN:VEVENT\nUID:"
    ++ icsUid startUtc
    ++ "\nDTSTAMP:" ++ fmtIcsDt startUtc
    ++ "\nDTSTART:" ++ fmtIcsDt startUtc
    ++ "\nDTEND:" ++ fmtIcsDt (startUtc + 60 * durationMin)
    ++ "\nSUMMARY:" ++ summary
    ++ "\nLOCATION:" ++ location.getD ""
    ++ "\nEND:VEVENT\nEND:VCALENDAR"

/-- The payload handed to the remote insert function. -/
structure CalPayload where
  summary : String
  startTime : ℤ
  endTime : ℤ
  location : String
deriving DecidableEq, Repr

/-- Side effects of `create_event_or_fallback`, in program order. -/
inductive CalEvent
  | icsWrite (path : String) (content : String)
  | remoteInsert (payload : CalPayload)
deriving DecidableEq, Repr

structure CalResult where
  status : String
  ics_path : String
  extra : Option String
deriving DecidableEq, Repr

/-- Model of `create_event_or_fallback`.  Here `insertFn` models the retry-wrapped
remote insert (`_attempt_insert`), abstracted to its overall outcome;
the returned trace lists the side effects in program order. -/
def createEventOrFallback (title : String) (startUtc durationMin : ℤ)
    (location : Option String) (useRealCalendar : Bool)
    (insertFn : Option (CalPayload → Except String Unit))
    (now : ℚ) (b : CircuitBreaker) :
    CalResult × List CalEvent × CircuitBreaker :=
  let path := "artifacts/invite.ics"
  let content := icsContent title startUtc durationMin location
  let wr := CalEvent.icsWrite path content
  match useRealCalendar, insertFn with
  | false, _ =>
    ({ status := "skipped_disabled", ics_path := path, extra := none }, [wr], b)
  | true, none =>
    ({ status := "skipped_disabled", ics_path := path, extra := none }, [wr], b)
  | true, some f =>
    let a := allow now b
    if a.1 = false then
      ({ status := "breaker_open", ics_path := path, extra := none }, [wr], a.2)
    else
      let payload : CalPayload :=
        { summary := title, startTime := startUtc,
          endTime := startUtc + 60 * durationMin, location := location.getD "" }
      match f payload with
      | Except.ok _ =>
        ({ status := "inserted", ics_path := path, extra := none },
          [wr, CalEvent.remoteInsert payload], record_success a.2)
      | Except.error e =>
        ({ status := "fallback_ics", ics_path := path, extra := some e },
          [wr, CalEvent.remoteInsert payload], record_failure now a.2)

/-- Claim C9: the implicit invariant of the breaker. -/
def BreakerInv (b : CircuitBreaker) : Prop :=
  b.state = .CLOSED → b.failures < b.threshold

/-! ## Retrieval cache validity (src/tools/retriever.py)

SHA-256 is modelled as an abstract hash function parameter; every theorem
below holds for an arbitrary hash function. -/

def EMBED_MODEL : String := "text-embedding-3-small"

/-- The fingerprint record written next to the cached vectors
(`built_at` is written but never consulted by `_cache_valid`). -/
structure CacheMeta where
  model : String
  csv_mtime : ℚ
  rows : ℤ
  corpus_sha256 : String
  dim : ℤ
  built_at : ℚ
deriving DecidableEq, Repr

/-- Model of `_cache_valid`, with its early returns in source order:
files exist, model, csv mtime, row count, corpus hash, dimension. -/
def cacheValid (hash : String → String) (filesExist : Bool) (meta : CacheMeta)
    (curMtime : ℚ) (corpus : List String) : Bool :=
  if filesExist = false then false
  else if meta.model ≠ EMBED_MODEL then false
  else if meta.csv_mtime ≠ curMtime then false
  else if meta.rows ≠ (corpus.length : ℤ) then false
  else if meta.corpus_sha256 ≠ hash (String.intercalate "\n" corpus) then false
  else if meta.dim ≠ 1536 then false
  else true

inductive BuildAction
  | loadCache
  | rebuild
deriving DecidableEq, Repr

/-- Model of `_ensure_embeddings`: load the cached vectors when the cache is valid,
otherwise re-embed the corpus and rewrite the cache. -/
def ensureEmbeddings (hash : String → String) (filesExist : Bool) (meta : CacheMeta)
    (curMtime : ℚ) (corpus : List String) : BuildAction :=
  if cacheValid hash filesExist meta curMtime corpus then .loadCache else .rebuild

/-- The fingerprint of the counterexample: everything matches except the
csv mtime recorded at cache-build time. -/
def metaC8 : CacheMeta :=
  { model := EMBED_MODEL, csv_mtime := 1, rows := 1,
    corpus_sha256 := String.intercalate "\n" ["python :: q1"],
    dim := 1536, built_at := 0 }

/-- A state on which `analyst` takes the widening branch with the default
parameters: three candidates, exactly one of which passes the 0.35
threshold. -/
def exStateC1 : OrchestratorState :=
  { jd := { title := "Data Engineer", must_haves := ["python"],
            nice_haves := [], location := none },
    candidates :=
      [ { name := "A", email := none, years_exp := 0, skills := ["python"],
          score := 0, resume_path := "a.pdf" },
        { name := "B", email := none, years_exp := 0, skills := [],
          score := 0, resume_path := "b.pdf" },
        { name := "C", email := none, years_exp := 0, skills := [],
          score := 0, resume_path := "c.pdf" } ],
    shortlisted := [], questions := [], policy_violation := false,
    needs_disambiguation := false, tool_error := false, schema_ok := false,
    violations := [] }

/-- A pipeline state that reaches the Repair stage (the mid-pipeline
validator fails on it, so the controller routes it to the reviewer):
one usable question and one must-have skill. -/
def exStateC2 : OrchestratorState :=
  { jd := { title := "Data Engineer", must_haves := ["Python"],
            nice_haves := [], location := none },
    candidates := [], shortlisted := [],
    questions := ["Tell me about yourself"],
    policy_violation := false, needs_disambiguation := false,
    tool_error := false, schema_ok := false, violations := [] }

/-- A state with eight usable questions: instance of the amended bound. -/
def exStateC2w : OrchestratorState :=
  { jd := { title := "Data Engineer", must_haves := ["Python", "SQL", "ETL"],
            nice_haves := [], location := none },
    candidates := [], shortlisted := [],
    questions := ["Q one a", "Q two b", "Q three c", "Q four d",
                  "Q five e", "Q six f", "Q seven g", "Q eight h"],
    policy_violation := false, needs_disambiguation := false,
    tool_error := false, schema_ok := false, violations := [] }

/-! ## Basic lemmas about overlap and rounding -/

lemma overlap_eq_overlapSpec (required skills : List String) :
    overlap required skills = overlapSpec required skills := by
  unfold overlap overlapSpec
  by_cases h : (canonize required).toFinset = ∅
  · simp [h]
  · simp [h]

lemma overlap_nonneg (required skills : List String) :
    0 ≤ overlap required skills := by
  unfold overlap
  by_cases h : (canonize required).toFinset = ∅
  · simp [h]
  · simp only [h, if_false]
    positivity

lemma overlap_le_one (required skills : List String) :
    overlap required skills ≤ 1 := by
  unfold overlap
  by_cases h : (canonize required).toFinset = ∅
  · simp [h]
  · simp only [h, if_false]
    rw [div_le_one (by positivity)]
    have hcard : ((canonize required).toFinset ∩ (canonize skills).toFinset).card
        ≤ (canonize required).toFinset.card :=
      Finset.card_le_card (Finset.inter_subset_left)
    have hmax : (canonize required).toFinset.card ≤ max 1 (canonize required).toFinset.card :=
      le_max_right _ _
    exact_mod_cast le_trans hcard hmax

lemma roundHalfEven_le (x : ℚ) : ((roundHalfEven x : ℤ) : ℚ) ≤ x + 1/2 := by
  unfold roundHalfEven
  have hfl : ((⌊x⌋ : ℤ) : ℚ) ≤ x := Int.floor_le x
  split_ifs with h1 h2 h3
  · linarith
  · push_neg at h1
    push_cast
    linarith
  · linarith
  · push_neg at h1 h2
    have : x - ((⌊x⌋ : ℤ) : ℚ) = 1/2 := le_antisymm h2 h1
    push_cast
    linarith

lemma le_roundHalfEven (x : ℚ) : x - 1/2 ≤ ((roundHalfEven x : ℤ) : ℚ) := by
  unfold roundHalfEven
  have hfl : x < ((⌊x⌋ : ℤ) : ℚ) + 1 := Int.lt_floor_add_one x
  split_ifs with h1 h2 h3
  · linarith
  · push_cast
    linarith
  · push_neg at h1 h2
    have : x - ((⌊x⌋ : ℤ) : ℚ) = 1/2 := le_antisymm h2 h1
    linarith
  · push_neg at h1 h2
    have : x - ((⌊x⌋ : ℤ) : ℚ) = 1/2 := le_antisymm h2 h1
    push_cast
    linarith

lemma round4_le (x : ℚ) : round4 x ≤ x + 1/20000 := by
  unfold round4
  have h := roundHalfEven_le (x * 10000)
  rw [div_le_iff₀ (by norm_num : (0:ℚ) < 10000)]
  linarith

lemma le_round4 (x : ℚ) : x - 1/20000 ≤ round4 x := by
  unfold round4
  have h := le_roundHalfEven (x * 10000)
  rw [le_div_iff₀ (by norm_num : (0:ℚ) < 10000)]
  linarith

lemma exp_bonus_nonneg (y : ℤ) : 0 ≤ min (((max y 0 : ℤ) : ℚ) / 10) (3/10) := by
  apply le_min
  · have : (0:ℚ) ≤ ((max y 0 : ℤ) : ℚ) := by exact_mod_cast le_max_right y 0
    linarith
  · norm_num

lemma exp_bonus_le (y : ℤ) : min (((max y 0 : ℤ) : ℚ) / 10) (3/10) ≤ 3/10 :=
  min_le_right _ _

lemma mem_insertDesc {x y : Candidate} {l : List Candidate}
    (h : y ∈ insertDesc x l) : y = x ∨ y ∈ l := by
  induction l with
  | nil => simpa [insertDesc] using h
  | cons z zs ih =>
    unfold insertDesc at h
    split_ifs at h with hz
    · rcases List.mem_cons.mp h with h | h
      · exact Or.inl h
      · exact Or.inr h
    · rcases List.mem_cons.mp h with h | h
      · exact Or.inr (by simp [h])
      · rcases ih h with h' | h'
        · exact Or.inl h'
        · exact Or.inr (by simp [h'])

lemma scoreDesc_insertDesc {x : Candidate} {l : List Candidate}
    (h : ScoreDesc l) : ScoreDesc (insertDesc x l) := by
  induction l with
  | nil => simp [insertDesc, ScoreDesc]
  | cons z zs ih =>
    unfold ScoreDesc at h
    rcases List.pairwise_cons.mp h with ⟨hz, hzs⟩
    unfold insertDesc
    split_ifs with hle
    · refine List.pairwise_cons.mpr ⟨?_, h⟩
      intro y hy
      rcases List.mem_cons.mp hy with rfl | hy
      · exact hle
      · exact le_trans (hz y hy) hle
    · refine List.pairwise_cons.mpr ⟨?_, ih hzs⟩
      intro y hy
      rcases mem_insertDesc hy with rfl | hy
      · exact le_of_lt (lt_of_not_le hle)
      · exact hz y hy

lemma scoreDesc_sortDesc (l : List Candidate) : ScoreDesc (sortDesc l) := by
  induction l with
  | nil => simp [sortDesc, ScoreDesc]
  | cons x xs ih => exact scoreDesc_insertDesc ih

lemma length_insertDesc (x : Candidate) (l : List Candidate) :
    (insertDesc x l).length = l.length + 1 := by
  induction l with
  | nil => simp [insertDesc]
  | cons z zs ih =>
    unfold insertDesc
    split_ifs with hle
    · simp
    · simp [ih]

lemma length_sortDesc (l : List Candidate) : (sortDesc l).length = l.length := by
  induction l with
  | nil => simp [sortDesc]
  | cons x xs ih => simp [sortDesc, length_insertDesc, ih]

lemma length_scoreAll (jd : JD) (cands : List Candidate) :
    (scoreAll jd cands).length = cands.length :=
  List.length_map _ _

lemma scoreDesc_filter (p : Candidate → Bool) {l : List Candidate}
    (h : ScoreDesc l) : ScoreDesc (l.filter p) :=
  List.Pairwise.filter p h

lemma scoreDesc_take (n : ℕ) {l : List Candidate} (h : ScoreDesc l) :
    ScoreDesc (l.take n) :=
  List.Pairwise.sublist (List.take_sublist n l) h

/-! ## Claims C6 and C9: the circuit breaker -/

lemma applyFailures_open :
    ∀ (ts : List ℚ) (b : CircuitBreaker), b.state = .OPEN →
      (applyFailures ts b).state = .OPEN := by
  intro ts
  induction ts with
  | nil => intro b h; simpa [applyFailures] using h
  | cons t rest ih =>
    intro b h
    show (applyFailures rest (record_failure t b)).state = .OPEN
    apply ih
    unfold record_failure
    rw [if_neg (by simp [h])]
    split_ifs with hth
    · rfl
    · simpa using h

lemma closed_failures_reach_open :
    ∀ (ts : List ℚ) (b : CircuitBreaker), b.state = .CLOSED →
      b.threshold ≤ b.failures + ts.length → ts ≠ [] →
      (applyFailures ts b).state = .OPEN := by
  intro ts
  induction ts with
  | nil => intro b _ _ hne; exact absurd rfl hne
  | cons t rest ih =>
    intro b hc hth _
    show (applyFailures rest (record_failure t b)).state = .OPEN
    unfold record_failure
    rw [if_neg (by simp [hc])]
    by_cases hcase : b.threshold ≤ b.failures + 1
    · rw [if_pos hcase]
      exact applyFailures_open rest _ rfl
    · rw [if_neg hcase]
      have hlen : rest ≠ [] := by
        rw [← List.length_pos]
        simp only [List.length_cons] at hth
        push_neg at hcase
        by_contra hzero
        push_neg at hzero
        omega
      apply ih _ (by simpa using hc) _ hlen
      simp only [List.length_cons] at hth
      push_cast at hth ⊢
      omega

/-- Claim C6: the circuit-breaker lifecycle.  From the initial state,
`threshold` consecutive recorded failures open the breaker; while OPEN
before the cooldown expires, `allow` refuses and leaves the breaker
unchanged; the first `allow` at or after the cooldown expiry permits the
call and moves to HALF; a success in HALF closes the breaker and resets
the failure count; a failure in HALF reopens it immediately with the
cooldown reset and the failure count saturated. -/
theorem breaker_lifecycle :
    (∀ (th : ℤ) (cd : ℚ) (ts : List ℚ), 1 ≤ th → (ts.length : ℤ) = th →
        (applyFailures ts (initBreaker th cd)).state = .OPEN)
    ∧ (∀ (now : ℚ) (b : CircuitBreaker), b.state = .OPEN → now < b.open_until →
        allow now b = (false, b))
    ∧ (∀ (now : ℚ) (b : CircuitBreaker), b.state = .OPEN → b.open_until ≤ now →
        allow now b = (true, { b with state := .HALF }))
    ∧ (∀ b : CircuitBreaker, b.state = .HALF →
        record_success b
          = { b with state := .CLOSED, failures := 0, open_until := 0 })
    ∧ (∀ (now : ℚ) (b : CircuitBreaker), b.state = .HALF →
        record_failure now b
          = { b with state := .OPEN, open_until := now + b.cooldown_s,
                     failures := b.threshold }) := by
  refine ⟨?_, ?_, ?_, ?_, ?_⟩
  · intro th cd ts h1 hlen
    apply closed_failures_reach_open ts (initBreaker th cd) rfl
    · show th ≤ 0 + (ts.length : ℤ)
      omega
    · rw [← List.length_pos]
      omega
  · intro now b hb hlt
    unfold allow
    rw [if_pos hb, if_neg (not_le.mpr hlt)]
  · intro now b hb hle
    unfold allow
    rw [if_pos hb, if_pos hle]
  · intro b _
    rfl
  · intro now b hb
    unfold record_failure
    rw [if_pos hb]

/-- Concrete lifecycle run: threshold 3, cooldown 30. -/
theorem breaker_lifecycle_witness :
    (applyFailures [0, 1, 2] (initBreaker 3 30)).state = BState.OPEN
    ∧ allow 50 (CircuitBreaker.mk 3 30 BState.OPEN 3 100)
        = (false, CircuitBreaker.mk 3 30 BState.OPEN 3 100)
    ∧ allow 100 (CircuitBreaker.mk 3 30 BState.OPEN 3 100)
        = (true, CircuitBreaker.mk 3 30 BState.HALF 3 100)
    ∧ record_success (CircuitBreaker.mk 3 30 BState.HALF 2 100)
        = CircuitBreaker.mk 3 30 BState.CLOSED 0 0
    ∧ record_failure 7 (CircuitBreaker.mk 3 30 BState.HALF 2 100)
        = CircuitBreaker.mk 3 30 BState.OPEN 3 (7 + 30) :=
  ⟨breaker_lifecycle.1 3 30 [0, 1, 2] (by norm_num) (by norm_num),
    breaker_lifecycle.2.1 50 (CircuitBreaker.mk 3 30 BState.OPEN 3 100)
      rfl (by norm_num),
    breaker_lifecycle.2.2.1 100 (CircuitBreaker.mk 3 30 BState.OPEN 3 100)
      rfl (by norm_num),
    breaker_lifecycle.2.2.2.1 (CircuitBreaker.mk 3 30 BState.HALF 2 100) rfl,
    breaker_lifecycle.2.2.2.2 7 (CircuitBreaker.mk 3 30 BState.HALF 2 100) rfl⟩

/-- Claim C9: with threshold ≥ 1, a CLOSED breaker always has strictly
fewer recorded failures than the threshold: true initially and preserved
by `allow`, `record_success` and `record_failure`. -/
theorem breaker_closed_invariant :
    (∀ (th : ℤ) (cd : ℚ), 1 ≤ th → BreakerInv (initBreaker th cd))
    ∧ (∀ (now : ℚ) (b : CircuitBreaker), BreakerInv b → BreakerInv (allow now b).2)
    ∧ (∀ b : CircuitBreaker, 1 ≤ b.threshold → BreakerInv (record_success b))
    ∧ (∀ (now : ℚ) (b : CircuitBreaker), BreakerInv b →
        BreakerInv (record_failure now b)) := by
  refine ⟨?_, ?_, ?_, ?_⟩
  · intro th cd h1 _
    simpa [initBreaker] using h1
  · intro now b hb
    unfold allow
    split_ifs with h1 h2
    · intro hc
      exact absurd hc (by simp)
    · exact hb
    · exact hb
  · intro b h1 _
    simpa [record_success] using h1
  · intro now b hb
    unfold record_failure
    split_ifs with h1 h2
    · intro hc
      exact absurd hc (by simp)
    · intro hc
      exact absurd hc (by simp)
    · intro hc
      have := hb (by simpa using hc)
      simp only [gt_iff_lt]
      push_neg at h2
      simpa using h2

/-- Concrete instances of the invariant: the initial breaker, and the
breaker after one recorded failure (still CLOSED, counter below 3). -/
theorem breaker_closed_invariant_witness :
    (initBreaker 3 30).failures < (initBreaker 3 30).threshold
    ∧ (record_failure 0 (initBreaker 3 30)).failures
        < (record_failure 0 (initBreaker 3 30)).threshold :=
  ⟨breaker_closed_invariant.1 3 30 (by norm_num) rfl,
    breaker_closed_invariant.2.2.2 0 (initBreaker 3 30)
      (breaker_closed_invariant.1 3 30 (by norm_num)) (by decide)⟩

/-! ## Claim C7: the ICS fallback artifact -/

/-- Claim C7: for every input (any breaker state, enablement flag and
remote outcome) the first side effect of `create_event_or_fallback` is
writing the ICS artifact — any remote attempt comes later in the trace —
the returned record carries the ICS path in all four outcomes, and the
written artifact contains the unique identifier derived from the start
time together with the UTC-formatted start and end timestamps. -/
theorem create_event_ics_first :
    ∀ (title : String) (startUtc durationMin : ℤ) (location : Option String)
      (useReal : Bool) (insertFn : Option (CalPayload → Except String Unit))
      (now : ℚ) (b : CircuitBreaker),
      (∃ rest,
        (createEventOrFallback title startUtc durationMin location useReal
            insertFn now b).2.1
          = CalEvent.icsWrite "artifacts/invite.ics"
              (icsContent title startUtc durationMin location) :: rest)
      ∧ (createEventOrFallback title startUtc durationMin location useReal
            insertFn now b).1.ics_path = "artifacts/invite.ics"
      ∧ (∃ p q, icsContent title startUtc durationMin location
          = p ++ icsUid startUtc ++ q)
      ∧ (∃ p q, icsContent title startUtc durationMin location
          = p ++ ("\nDTSTART:" ++ fmtIcsDt startUtc) ++ q)
      ∧ (∃ p q, icsContent title startUtc durationMin location
          = p ++ ("\nDTEND:" ++ fmtIcsDt (startUtc + 60 * durationMin)) ++ q) := by
  intro title startUtc durationMin location useReal insertFn now b
  refine ⟨?_, ?_, ?_, ?_, ?_⟩
  · cases useReal <;> cases insertFn <;> simp only [createEventOrFallback]
    all_goals try exact ⟨[], rfl⟩
    split_ifs
    · exact ⟨[], rfl⟩
    · split <;> exact ⟨[CalEvent.remoteInsert _], rfl⟩
  · cases useReal <;> cases insertFn <;> simp only [createEventOrFallback]
    split_ifs
    · rfl
    · split <;> rfl
  · exact ⟨"BEGIN:VCALENDAR\nVERSION:2.0\nPRODID:-//HR Orchestrator//EN\nBEGIN:VEVENT\nUID:",
      "\nDTSTAMP:" ++ fmtIcsDt startUtc ++ "\nDTSTART:" ++ fmtIcsDt startUtc
        ++ "\nDTEND:" ++ fmtIcsDt (startUtc + 60 * durationMin)
        ++ "\nSUMMARY:" ++ title ++ "\nLOCATION:" ++ location.getD ""
        ++ "\nEND:VEVENT\nEND:VCALENDAR",
      by simp [icsContent, String.append_assoc]⟩
  · exact ⟨"BEGIN:VCALENDAR\nVERSION:2.0\nPRODID:-//HR Orchestrator//EN\nBEGIN:VEVENT\nUID:"
        ++ icsUid startUtc ++ "\nDTSTAMP:" ++ fmtIcsDt startUtc,
      "\nDTEND:" ++ fmtIcsDt (startUtc + 60 * durationMin)
        ++ "\nSUMMARY:" ++ title ++ "\nLOCATION:" ++ location.getD ""
        ++ "\nEND:VEVENT\nEND:VCALENDAR",
      by simp [icsContent, String.append_assoc]⟩
  · exact ⟨"BEGIN:VCALENDAR\nVERSION:2.0\nPRODID:-//HR Orchestrator//EN\nBEGIN:VEVENT\nUID:"
        ++ icsUid startUtc ++ "\nDTSTAMP:" ++ fmtIcsDt startUtc
        ++ "\nDTSTART:" ++ fmtIcsDt startUtc,
      "\nSUMMARY:" ++ title ++ "\nLOCATION:" ++ location.getD ""
        ++ "\nEND:VEVENT\nEND:VCALENDAR",
      by simp [icsContent, String.append_assoc]⟩

/-! ## Claim C8: cache validity -/

/-- Claim C8, amended: the embedding index is rebuilt if and only if the
cache files are missing or any of the five checked fingerprint fields
differs: model identifier, csv file mtime, row count, corpus content
hash, vector dimension.  In particular an identical corpus with the same
model and an untouched csv file reuses the cached vectors. -/
theorem cache_rebuild_iff_fingerprint_mismatch :
    ∀ (hash : String → String) (filesExist : Bool) (meta : CacheMeta)
      (curMtime : ℚ) (corpus : List String),
      (ensureEmbeddings hash filesExist meta curMtime corpus = BuildAction.rebuild
        ↔ (filesExist = false ∨ meta.model ≠ EMBED_MODEL
            ∨ meta.csv_mtime ≠ curMtime
            ∨ meta.rows ≠ (corpus.length : ℤ)
            ∨ meta.corpus_sha256 ≠ hash (String.intercalate "\n" corpus)
            ∨ meta.dim ≠ 1536))
      ∧ (ensureEmbeddings hash filesExist meta curMtime corpus = BuildAction.loadCache
        ↔ (filesExist = true ∧ meta.model = EMBED_MODEL
            ∧ meta.csv_mtime = curMtime
            ∧ meta.rows = (corpus.length : ℤ)
            ∧ meta.corpus_sha256 = hash (String.intercalate "\n" corpus)
            ∧ meta.dim = 1536)) := by
  intro hash filesExist meta curMtime corpus
  unfold ensureEmbeddings cacheValid
  split_ifs with h1 h2 h3 h4 h5 h6 <;> cases filesExist <;> simp_all

/-- Counterexample to claim C8 as stated: the corpus content, the row
count and the model are all unchanged (with the identity as hash
function), yet `_cache_valid` rejects the cache — the csv file mtime
moved from 1 to 2 — so `_ensure_embeddings` re-embeds. -/
theorem cache_rebuild_despite_unchanged_corpus :
    ensureEmbeddings (fun s => s) true metaC8 2 ["python :: q1"]
        = BuildAction.rebuild
    ∧ metaC8.model = EMBED_MODEL
    ∧ metaC8.rows = (([("python :: q1" : String)] : List String).length : ℤ)
    ∧ metaC8.corpus_sha256
        = (fun s => s) (String.intercalate "\n" ["python :: q1"]) := by
  refine ⟨?_, rfl, by decide, rfl⟩
  decide

/-! ## Claim C1: the analyst widening path -/

lemma analystFixed_widens (st : OrchestratorState) (nF nW : ℕ) (sF wF : ℚ)
    (h3 : 3 ≤ st.candidates.length)
    (hlt : (shortlist st.jd st.candidates nF sF).length < 3) :
    (analystFixed st nF nW sF wF).needs_disambiguation = true
    ∧ 3 ≤ (analystFixed st nF nW sF wF).shortlisted.length := by
  unfold analystFixed
  rw [if_pos ⟨hlt, h3⟩]
  refine ⟨rfl, ?_⟩
  by_cases h2 : (shortlist st.jd st.candidates nW (sF * wF)).length < 3
  · simp only [h2, if_pos]
    rw [List.length_take, length_sortDesc, length_scoreAll]
    omega
  · simp only [h2, if_neg, ite_false]
    omega

/-- Claim C1 (code evaluation at the failing input): with the default
parameters, on a pool of 3 candidates whose initial shortlist has a single
member, `analyst` raises instead of widening — the first statement of its
widening branch assigns the undeclared pydantic field
`needs_disambiguination`.  The stage neither sets `needs_disambiguation`
nor stores a 3-element shortlist; it terminates abnormally. -/
theorem analyst_widening_raises_on_typo_flag :
    analystRun exStateC1 top_n_first top_n_wide min_score_first widen_factor
      = Except.error "OrchestratorState object has no field needs_disambiguination"
    ∧ (shortlist exStateC1.jd exStateC1.candidates top_n_first min_score_first).length = 1
    ∧ 3 ≤ exStateC1.candidates.length := by
  refine ⟨?_, by decide, by decide⟩
  rfl

/-! ## Claim C2: reviewer question bounds -/

lemma topUp_length_ge :
    ∀ (ms : List String) (qs : List String),
      min 8 (qs.length + countGoodSkills ms) ≤ (topUpQuestions qs ms).length := by
  intro ms
  induction ms with
  | nil =>
    intro qs
    simp [topUpQuestions, countGoodSkills]
  | cons m rest ih =>
    intro qs
    unfold topUpQuestions
    by_cases h8 : qs.length < 8
    · rw [if_pos h8]
      by_cases hm : pyStripStr m ≠ ""
      · rw [if_pos hm]
        have hcount : countGoodSkills (m :: rest) = countGoodSkills rest + 1 := by
          simp [countGoodSkills, List.filter_cons, hm]
        have := ih (qs ++ [questionTemplate (pyStripStr m)])
        rw [List.length_append] at this
        simp only [List.length_singleton] at this
        omega
      · rw [if_neg hm]
        have hcount : countGoodSkills (m :: rest) = countGoodSkills rest := by
          simp only [ne_eq, not_not] at hm
          simp [countGoodSkills, List.filter_cons, hm]
        have := ih qs
        omega
    · rw [if_neg h8]
      omega

lemma reviewer_questions_def (s : OrchestratorState) :
    (reviewer s).questions
      = (topUpQuestions (dedupClean s.questions) s.jd.must_haves).take 12 := rfl

/-- Claim C2, amended: after the Repair stage the question list has at
most 12 entries, and at least 8 whenever the cleaned deduplicated incoming
questions together with the trimmed non-empty must-have skills number at
least 8.  (The unconditional lower bound of the claim fails: see the
counterexample.) -/
theorem reviewer_questions_bounds :
    ∀ s : OrchestratorState,
      (reviewer s).questions.length ≤ 12
      ∧ (8 ≤ (dedupClean s.questions).length + countGoodSkills s.jd.must_haves →
          8 ≤ (reviewer s).questions.length) := by
  intro s
  rw [reviewer_questions_def, List.length_take]
  constructor
  · omega
  · intro h
    have := topUp_length_ge s.jd.must_haves (dedupClean s.questions)
    omega

/-- Counterexample to claim C2 as stated: this state reaches the Repair
stage (the mid-pipeline validator rejects it, which is what routes a state
to the reviewer), yet after repair the question list has 2 entries, below
the claimed lower bound of 8. -/
theorem reviewer_questions_can_fall_below_eight :
    (validateStateTransition exStateC2).1 = false
    ∧ (reviewer exStateC2).questions.length = 2
    ∧ ¬ (8 ≤ (reviewer exStateC2).questions.length) := by
  refine ⟨?_, ?_, ?_⟩ <;> decide

theorem reviewer_questions_bounds_witness :
    (reviewer exStateC2w).questions.length ≤ 12
    ∧ 8 ≤ (reviewer exStateC2w).questions.length :=
  ⟨(reviewer_questions_bounds exStateC2w).1,
    (reviewer_questions_bounds exStateC2w).2 (by decide)⟩

/-! ## Claim C3: the scoring formula -/

lemma overlapSpec_nil (skills : List String) : overlapSpec [] skills = 0 := by
  simp [overlapSpec, canonize]

/-- Claim C3: for every job requirement set and candidate, the computed
score equals round4 of `0.7 * mustOverlap + 0.3 * niceOverlap +
min (max yearsExp 0 / 10) 0.3` with the overlap ratios of the spec, and
the scoring pass mutates only the score field of the candidate. -/
theorem score_candidate_matches_spec :
    ∀ (jd : JD) (c : Candidate),
      score_candidate jd c = scoreSpec jd c
      ∧ (scoreUpdate jd c).name = c.name
      ∧ (scoreUpdate jd c).email = c.email
      ∧ (scoreUpdate jd c).years_exp = c.years_exp
      ∧ (scoreUpdate jd c).skills = c.skills
      ∧ (scoreUpdate jd c).resume_path = c.resume_path
      ∧ (scoreUpdate jd c).score = score_candidate jd c := by
  intro jd c
  refine ⟨?_, rfl, rfl, rfl, rfl, rfl, rfl⟩
  have hnice : (if jd.nice_haves ≠ [] then overlap jd.nice_haves c.skills else 0)
      = overlapSpec jd.nice_haves c.skills := by
    by_cases h : jd.nice_haves = []
    · simp [h, overlapSpec_nil]
    · simp [h, overlap_eq_overlapSpec]
  unfold score_candidate scoreSpec
  rw [overlap_eq_overlapSpec, hnice]

/-! ## Claim C4: must-have dominance -/

lemma score_candidate_le_of_no_musthave (jd : JD) (c : Candidate)
    (h : overlap jd.must_haves c.skills = 0) :
    score_candidate jd c ≤ 6/10 + 1/20000 := by
  unfold score_candidate
  rw [h]
  have hn : (if jd.nice_haves ≠ [] then overlap jd.nice_haves c.skills else 0) ≤ 1 := by
    split_ifs
    · exact overlap_le_one _ _
    · norm_num
  have he := exp_bonus_le c.years_exp
  have hr := round4_le (7/10 * 0
    + 3/10 * (if jd.nice_haves ≠ [] then overlap jd.nice_haves c.skills else 0)
    + min (((max c.years_exp 0 : ℤ) : ℚ) / 10) (3/10))
  linarith

lemma le_score_candidate_of_all_musthave (jd : JD) (c : Candidate)
    (h : overlap jd.must_haves c.skills = 1) :
    7/10 - 1/20000 ≤ score_candidate jd c := by
  unfold score_candidate
  rw [h]
  have hn : 0 ≤ (if jd.nice_haves ≠ [] then overlap jd.nice_haves c.skills else 0) := by
    split_ifs
    · exact overlap_nonneg _ _
    · norm_num
  have he := exp_bonus_nonneg c.years_exp
  have hr := le_round4 (7/10 * 1
    + 3/10 * (if jd.nice_haves ≠ [] then overlap jd.nice_haves c.skills else 0)
    + min (((max c.years_exp 0 : ℤ) : ℚ) / 10) (3/10))
  linarith

/-- Claim C4: against one job requirement set, a candidate holding none of
the (non-vacuous) canonicalized must-have skills never scores strictly above
a candidate holding all of them, whatever their experience or
nice-to-have skills. -/
theorem musthave_dominance :
    ∀ (jd : JD) (a b : Candidate),
      ((canonize jd.must_haves).toFinset).Nonempty →
      (canonize jd.must_haves).toFinset ⊆ (canonize a.skills).toFinset →
      (∀ x ∈ (canonize jd.must_haves).toFinset, x ∉ (canonize b.skills).toFinset) →
      score_candidate jd b ≤ score_candidate jd a := by
  intro jd a b hne hsub hdis
  have hRne : (canonize jd.must_haves).toFinset ≠ ∅ :=
    Finset.nonempty_iff_ne_empty.mp hne
  have hcard : 1 ≤ (canonize jd.must_haves).toFinset.card :=
    Finset.card_pos.mpr hne
  have hmustA : overlap jd.must_haves a.skills = 1 := by
    unfold overlap
    rw [if_neg hRne, Finset.inter_eq_left.mpr hsub, Nat.max_eq_right hcard]
    exact div_self (by exact_mod_cast Nat.one_le_iff_ne_zero.mp hcard)
  have hmustB : overlap jd.must_haves b.skills = 0 := by
    unfold overlap
    rw [if_neg hRne]
    have hint : (canonize jd.must_haves).toFinset ∩ (canonize b.skills).toFinset = ∅ := by
      rw [Finset.eq_empty_iff_forall_not_mem]
      intro x hx
      rcases Finset.mem_inter.mp hx with ⟨h1, h2⟩
      exact hdis x h1 h2
    rw [hint]
    simp
  have h1 := score_candidate_le_of_no_musthave jd b hmustB
  have h2 := le_score_candidate_of_all_musthave jd a hmustA
  linarith

/-! ## Claim C5: the shortlist selection -/

lemma shortlist_ne_nil {jd : JD} {cands : List Candidate} {top_n : ℕ} {t : ℚ}
    (hN : 1 ≤ top_n) (hc : cands ≠ []) : shortlist jd cands top_n t ≠ [] := by
  have hlen : 0 < cands.length := List.length_pos.mpr hc
  rw [← List.length_pos]
  unfold shortlist
  by_cases hf : (sortDesc (scoreAll jd cands)).filter (fun c => t ≤ c.score) = []
  · simp only [hf, if_pos]
    rw [List.take_take, List.length_take, length_sortDesc, length_scoreAll]
    simp only [min_self]
    rw [lt_min_iff]
    exact ⟨hN, hlen⟩
  · simp only [hf, if_neg, ite_false]
    rw [List.length_take, lt_min_iff]
    exact ⟨hN, List.length_pos.mpr hf⟩

/-- Claim C5: `_shortlist` sorts the scored candidates into descending
score order (stable, so ties keep input order), keeps the candidates with
score ≥ T truncated to the first N, falls back to the sorted top N when
nobody meets the threshold, returns min N (filtered count) candidates when
the filtered set is non-empty, and is non-empty whenever N ≥ 1 and
candidates exist. -/
theorem shortlist_spec :
    ∀ (jd : JD) (cands : List Candidate) (N : ℕ) (T : ℚ),
      ScoreDesc (shortlist jd cands N T)
      ∧ ((sortDesc (scoreAll jd cands)).filter (fun c => T ≤ c.score) ≠ [] →
          shortlist jd cands N T
              = ((sortDesc (scoreAll jd cands)).filter (fun c => T ≤ c.score)).take N
            ∧ (shortlist jd cands N T).length
              = min N ((sortDesc (scoreAll jd cands)).filter (fun c => T ≤ c.score)).length)
      ∧ ((sortDesc (scoreAll jd cands)).filter (fun c => T ≤ c.score) = [] →
          shortlist jd cands N T = (sortDesc (scoreAll jd cands)).take N)
      ∧ (1 ≤ N → cands ≠ [] → shortlist jd cands N T ≠ []) := by
  intro jd cands N T
  refine ⟨?_, ?_, ?_, fun hN hc => shortlist_ne_nil hN hc⟩
  · unfold shortlist
    apply scoreDesc_take
    by_cases hf : (sortDesc (scoreAll jd cands)).filter (fun c => T ≤ c.score) = []
    · simp only [hf, if_pos]
      exact scoreDesc_take _ (scoreDesc_sortDesc _)
    · simp only [hf, if_neg, ite_false]
      exact scoreDesc_filter _ (scoreDesc_sortDesc _)
  · intro hf
    constructor
    · unfold shortlist
      simp only [hf, if_neg, ite_false]
    · unfold shortlist
      simp only [hf, if_neg, ite_false]
      exact List.length_take _ _
  · intro hf
    unfold shortlist
    simp only [hf, if_pos]
    rw [List.take_take, min_self]

/-- Concrete instance of the shortlist theorem: one matching candidate,
N = 1, threshold 0. -/
theorem shortlist_spec_witness :
    (sortDesc (scoreAll (JD.mk "Data Engineer" ["python"] [] none)
        [Candidate.mk "Alice" none 2 ["python"] 0 "a.pdf"])).filter
        (fun c => (0:ℚ) ≤ c.score) ≠ []
    ∧ (shortlist (JD.mk "Data Engineer" ["python"] [] none)
        [Candidate.mk "Alice" none 2 ["python"] 0 "a.pdf"] 1 0).length
      = min 1 ((sortDesc (scoreAll (JD.mk "Data Engineer" ["python"] [] none)
          [Candidate.mk "Alice" none 2 ["python"] 0 "a.pdf"])).filter
          (fun c => (0:ℚ) ≤ c.score)).length
    ∧ shortlist (JD.mk "Data Engineer" ["python"] [] none)
        [Candidate.mk "Alice" none 2 ["python"] 0 "a.pdf"] 1 0 ≠ [] :=
  ⟨by decide,
    ((shortlist_spec (JD.mk "Data Engineer" ["python"] [] none)
        [Candidate.mk "Alice" none 2 ["python"] 0 "a.pdf"] 1 0).2.1 (by decide)).2,
    (shortlist_spec (JD.mk "Data Engineer" ["python"] [] none)
        [Candidate.mk "Alice" none 2 ["python"] 0 "a.pdf"] 1 0).2.2.2
      (by decide) (by decide)⟩

/-- Concrete instance of the dominance theorem. -/
theorem musthave_dominance_witness :
    ((canonize ["python"]).toFinset).Nonempty
    ∧ score_candidate (JD.mk "Data Engineer" ["python"] [] none)
        (Candidate.mk "Bob" none 20 ["java"] 0 "b.pdf")
      ≤ score_candidate (JD.mk "Data Engineer" ["python"] [] none)
        (Candidate.mk "Alice" none 0 ["python"] 0 "a.pdf") :=
  ⟨by decide,
    musthave_dominance (JD.mk "Data Engineer" ["python"] [] none)
      (Candidate.mk "Alice" none 0 ["python"] 0 "a.pdf")
      (Candidate.mk "Bob" none 20 ["java"] 0 "b.pdf")
      (by decide) (by decide) (by decide)⟩

end HR
